import Mathlib

/-!
Shallow embedding of the core orchestration-and-alignment subsystem of the
ICAnalysis repository: the event-index builder and weight-slice consumer
(`analysis/core/i3/models.py`), the database merge and deconfliction logic
(`analysis/core/db/models.py`), and the HTCondor job submitter/monitor and
job-spec generator (`analysis/jobs/models.py`).

Python strings are modelled as `List Char`; Python `int` values stored in the
SQLite `event_no` column are modelled as `Int`; fallible code returns
`Except`/`Option`.
-/

namespace ICAnalysis

/-! ## Python string primitives, modelled on `List Char` -/

/-- Whitespace characters recognised by Python `str.strip` / `str.split`
(for the ASCII data handled by this program). -/
def isWS (c : Char) : Bool := c = ' ' || c = '\t' || c = '\n' || c = '\r'

/-- Python `str.strip()`: remove leading and trailing whitespace. -/
def pystrip (l : List Char) : List Char :=
  ((l.dropWhile isWS).reverse.dropWhile isWS).reverse

/-- Test `startsWithL needle hay`: `hay` begins with `needle`. -/
def startsWithL : List Char → List Char → Bool
  | [], _ => true
  | _ :: _, [] => false
  | a :: as, b :: bs => a = b && startsWithL as bs

/-- Python `needle in hay` on strings: substring containment. -/
def containsSub (needle : List Char) : List Char → Bool
  | [] => startsWithL needle []
  | c :: cs => startsWithL needle (c :: cs) || containsSub needle cs

/-- Helper for `pysplit`: scan the characters, building up the current token
in reverse in `acc`, emitting it when whitespace (or the end) is reached. -/
def pysplitAux : List Char → List Char → List (List Char)
  | [], acc => if acc.isEmpty then [] else [acc.reverse]
  | c :: cs, acc =>
    if isWS c then
      if acc.isEmpty then pysplitAux cs [] else acc.reverse :: pysplitAux cs []
    else
      pysplitAux cs (c :: acc)

/-- Python `str.split()` with no argument: split on runs of whitespace,
discarding empty pieces. -/
def pysplit (l : List Char) : List (List Char) := pysplitAux l []

/-- Python `str.isdigit()`: nonempty and all characters are digits. -/
def isdigitTok (l : List Char) : Bool := !l.isEmpty && l.all Char.isDigit

/-- Python `int(...)` on a digit string. -/
def charsToNat (l : List Char) : Nat :=
  l.foldl (fun n c => 10 * n + (c.toNat - 48)) 0

/-- Python `str.lower()` for ASCII characters. -/
def asciiLower (c : Char) : Char :=
  if 'A' ≤ c ∧ c ≤ 'Z' then Char.ofNat (c.toNat + 32) else c

/-! ## Event-Index Builder (`I3FileGroup.generate_weight_config_file`) -/

/-- One entry of the weight configuration table: file key, `size` and
`index_start`. -/
structure IndexEntry where
  key : List Char
  size : Nat
  index_start : Nat
deriving DecidableEq

/-- The loop of `generate_weight_config_file`: walk the merge order with a
running `index`; for each file emit `{size, index_start := index}` and advance
`index` by the file's size.  A file is given as its key together with the
`size` read from its frame-count record. -/
def buildIndexEntries : List (List Char × Nat) → Nat → List IndexEntry
  | [], _ => []
  | (f, s) :: rest, index => ⟨f, s, index⟩ :: buildIndexEntries rest (index + s)

/-- Embedding of `I3FileGroup.generate_weight_config_file`, restricted to the index
computation: the running index starts at 0. -/
def generate_weight_config (files : List (List Char × Nat)) : List IndexEntry :=
  buildIndexEntries files 0

/-- The half-open range of an index entry covers position `n`. -/
def coversPos (e : IndexEntry) (n : Nat) : Prop :=
  e.index_start ≤ n ∧ n < e.index_start + e.size

instance (e : IndexEntry) (n : Nat) : Decidable (coversPos e n) := by
  unfold coversPos; infer_instance

/-! ## Weight-slice consumer (`I3File.__preload_weights`) -/

/-- The slice taken by `I3File.__preload_weights`:
`weight_data[init_index : init_index + frame_count + 1]`, where `init_index`
is the file's `index_start` and `frame_count` its `size` from the persisted
index table.  A Python slice with nonnegative bounds `a : b` is
`(drop a).take (b - a)`. -/
def preload_weights (weight_data : List Int) (init_index frame_count : Nat) :
    List Int :=
  (weight_data.drop init_index).take (frame_count + 1)

/-! ## Database merge and deconfliction (`DBFileGroup`) -/

/-- Python `max` on a nonempty list of ints (the code guards against the
empty case before calling `max`; on `[]` we return a junk value `0`). -/
def maxList : List Int → Int
  | [] => 0
  | x :: xs => xs.foldl max x

/-- Embedding of `DBFileGroup.__preprocess_for_merge`, body of the per-file loop.  A source
database is given by the six-digit numeric substring of its filename
(`sixDigits`, so `identifier = sixDigits * 10^6`; the Python float product
`int(... * 1e6)` is exact for six-digit values) and the contents of its
`truth.event_no` column read in sorted order (`SELECT ... ORDER BY event_no`).
Returns the `event_no` column after the remapping UPDATE pass is committed:
empty sources are skipped; otherwise the offset scheme `identifier + en` is
used unless some shifted value collides with the file's own existing event
set, in which case the fallback block
`range(max(existing) + 1, max(existing) + 1 + len)` is assigned. -/
def preprocess_for_merge_file (sixDigits : Nat) (event_nos : List Int) :
    List Int :=
  if event_nos.isEmpty then event_nos
  else
    let identifier : Int := (sixDigits : Int) * 1000000
    let new_event_nos := event_nos.map (fun en => identifier + en)
    let existing_events := event_nos
    if new_event_nos.any (fun n => existing_events.contains n) then
      let event_counter := maxList existing_events + 1
      (List.range event_nos.length).map (fun i => event_counter + Int.ofNat i)
    else
      new_event_nos

/-- Embedding of `DBFileGroup.__preprocess_for_merge`: the per-file remapping applied to
every source database of the group, in directory order. -/
def preprocess_for_merge (files : List (Nat × List Int)) :
    List (Nat × List Int) :=
  files.map (fun p => (p.1, preprocess_for_merge_file p.1 p.2))

/-- Embedding of `DBFileGroup.merge`, restricted to the `event_no` column of the `truth`
table: rows of every source are appended to the target in source order (the
batched `INSERT` loop preserves row order), so the merged column is the
concatenation of the sources' columns.  `merge` performs no remapping of its
own (it never invokes `__preprocess_for_merge`). -/
def merge (dbs : List (List Int)) : List Int := dbs.flatten

/-- The merged `event_no` column produced by running the group merge over
preprocessed sources (sources as in `preprocess_for_merge_file`). -/
def merge_preprocessed (files : List (Nat × List Int)) : List Int :=
  merge ((preprocess_for_merge files).map Prod.snd)

/-! ## Job status parsing (`HTCondorJob.status`) -/

/-- Python exceptions that `HTCondorJob.status` can raise and
`HTCondorJob._monitor` catches. -/
inductive PyErr
  | fileNotFoundError
  | indexError
deriving DecidableEq

/-- The eight counters of a DAGMan status line. -/
structure JobStatus where
  done : Nat
  pre : Nat
  queued : Nat
  post : Nat
  ready : Nat
  unready : Nat
  failed : Nat
  futile : Nat
deriving DecidableEq

/-- The fixed column-header marker searched for in `dagman.out`
(`condition_text` in `HTCondorJob.status`). -/
def condition_text : List Char :=
  "  Done     Pre   Queued    Post   Ready   Un-Ready   Failed   Futile".toList

/-- The inner `__parse` of `HTCondorJob.status`: split the status line on
whitespace, keep the tokens for which `str.isdigit()` holds, convert them to
ints, and read the eight counters positionally; fewer than eight digit tokens
raises `IndexError`. -/
def parse_status (output : List Char) : Except PyErr JobStatus :=
  match ((pysplit output).filter isdigitTok).map charsToNat with
  | v0 :: v1 :: v2 :: v3 :: v4 :: v5 :: v6 :: v7 :: _ =>
    .ok ⟨v0, v1, v2, v3, v4, v5, v6, v7⟩
  | _ => .error .indexError

/-- Embedding of `HTCondorJob.status`.  The run-log file is `none` when it does not exist
on disk (Python `open` raises `FileNotFoundError`) and otherwise the list of
its lines.  The lines are scanned in reverse order for the most recent line
whose stripped text contains `condition_text`; the line `lines_after` below
it is stripped, its first 17 characters (the entry time) are dropped, and the
remainder is parsed.  If no line matches, `None` is returned. -/
def status (file? : Option (List (List Char))) (lines_after : Nat) :
    Except PyErr (Option JobStatus) :=
  match file? with
  | none => .error .fileNotFoundError
  | some lines =>
    match (List.range lines.length).reverse.find?
        (fun i => containsSub condition_text (pystrip (lines.getD i []))) with
    | none => .ok none
    | some i =>
      match lines.get? (i + lines_after) with
      | none => .error .indexError
      | some raw =>
        match parse_status ((pystrip raw).drop 17) with
        | .ok st => .ok (some st)
        | .error e => .error e

/-! ## Monitor loop (`HTCondorJob._monitor`) -/

/-- One cycle of the `while True` loop in `HTCondorJob._monitor`, as a
function of the outcome of this cycle's `status()` call.  Returns `none` when
the loop returns (job complete), and `some s` when the loop proceeds to the
next cycle after sleeping `s` seconds:
* `FileNotFoundError` is caught, prints a message and sleeps 1 second;
* `IndexError` is caught and sleeps 1 second;
* a `None` status hits `continue`, which skips the `time.sleep(1)` at the
  bottom of the loop body, so the next fetch happens with no wait;
* a parsed status returns if `queued + ready == 0`, else sleeps 1 second. -/
def monitorCycle (r : Except PyErr (Option JobStatus)) : Option Nat :=
  match r with
  | .error .fileNotFoundError => some 1
  | .error .indexError => some 1
  | .ok none => some 0
  | .ok (some st) => if st.queued + st.ready = 0 then none else some 1

/-- Run the monitor loop against a finite trace of successive `status()`
outcomes.  Returns `some n` when the loop returns during the `n`-th cycle
(having performed exactly `n` status fetches), and `none` when the trace is
exhausted with the loop still running. -/
def monitorPolls : List (Except PyErr (Option JobStatus)) → Option Nat
  | [] => none
  | r :: rest =>
    match monitorCycle r with
    | none => some 1
    | some _ => (monitorPolls rest).map (fun n => n + 1)

/-- Total seconds slept by the monitor loop over a trace of `status()`
outcomes (stopping at the cycle in which the loop returns). -/
def monitorSleeps : List (Except PyErr (Option JobStatus)) → Nat
  | [] => 0
  | r :: rest =>
    match monitorCycle r with
    | none => 0
    | some s => s + monitorSleeps rest

/-- A `status()` outcome on which the loop returns: a successfully parsed
status with `queued + ready = 0`. -/
def isTerminalRead (r : Except PyErr (Option JobStatus)) : Bool :=
  match r with
  | .ok (some st) => st.queued + st.ready = 0
  | _ => false

/-- Index of the first terminal read in a trace, if any. -/
def firstTerminalIdx : List (Except PyErr (Option JobStatus)) → Option Nat
  | [] => none
  | r :: rest =>
    if isTerminalRead r then some 0
    else (firstTerminalIdx rest).map (fun n => n + 1)

/-! ## Job submission (`HTCondorJob.submit`) -/

/-- The marker test of the extraction loop in `HTCondorJob.submit`:
`"cluster" in line.lower()`. -/
def lineHasCluster (line : List Char) : Bool :=
  containsSub ("cluster".toList) (line.map asciiLower)

/-- The job-id extraction loop of `HTCondorJob.submit`: scan the captured
stdout lines in order, stopping at the first line containing the marker, and
take `line.split()[-1]`. -/
def submit_job_id (stdout_lines : List (List Char)) : Option (List Char) :=
  match stdout_lines.find? lineHasCluster with
  | some line => (pysplit line).getLast?
  | none => none

/-- Embedding of the check by which `HTCondorJob.submit` raises `ValueError`: exactly when the extracted
`job_id` is still `None` (or falsy) after the loop: `if not job_id: raise`. -/
def submit_raises (stdout_lines : List (List Char)) : Bool :=
  match submit_job_id stdout_lines with
  | none => true
  | some id => id.isEmpty

/-! ## Job-spec generation (`HTCondorJob.configure` / `create_dag` /
`create_job_sub` / `create_job_sh`) -/

/-- Decimal rendering of a nonnegative int, as produced by a Python f-string. -/
def natToChars (n : Nat) : List Char := Nat.toDigits 10 n

/-- Python `os.path.basename` for the slash-separated paths handled here. -/
def basenameOf (p : List Char) : List Char :=
  (p.reverse.takeWhile (fun c => c ≠ '/')).reverse

/-- Python `os.path.join(a, b)` for two components: an absolute second component
wins; otherwise a separator is inserted unless `a` is empty or already ends
with one. -/
def pathJoin (a b : List Char) : List Char :=
  if b.head? = some '/' then b
  else if a.isEmpty || a.getLast? = some '/' then a ++ b
  else a ++ '/' :: b

/-- Python `str.replace(o :: os, new)` (all occurrences, nonempty pattern,
leftmost-first). -/
def pyreplace (o : Char) (os new : List Char) : List Char → List Char
  | [] => []
  | c :: cs =>
    if startsWithL (o :: os) (c :: cs) then
      new ++ pyreplace o os new (cs.drop os.length)
    else
      c :: pyreplace o os new cs
termination_by s => s.length
decreasing_by
· simp only [List.length_drop, List.length_cons]
  omega
· simp

/-- Python `str.replace(old, new)` as used by `create_dag` on the input and
output extensions (which are nonempty strings such as `".i3.zst"`). -/
def strReplace (s old new : List Char) : List Char :=
  match old with
  | [] => s
  | o :: os => pyreplace o os new s

/-- The configuration of an `HTCondorJob` instance: the fields consulted by
the artifact generators (the snapshot of input files taken at construction,
the artifact paths, and the `job.sub` resource settings).  `job_universe`
models the `_universe` attribute. -/
structure HTCondorJobCfg where
  input_files : List (List Char)
  output_dir : List Char
  script_path : List Char
  input_file_ext : List Char
  output_file_ext : List Char
  config_file_path : List Char
  job_sub_file_path : List Char
  job_sh_file_path : List Char
  log_file_path : List Char
  out_file_path : List Char
  err_file_path : List Char
  request_cpus : Nat
  request_memory : List Char
  request_disk : List Char
  job_universe : List Char
  should_transfer_files : List Char
  when_to_transfer_output : List Char
deriving DecidableEq

/-- The `dagman.dag` content written by `HTCondorJob.create_dag`: a `CONFIG`
line, then for the `i`-th input file a `JOB job_i` line referencing the
shared submission template and a `VARS job_i` line binding `infile` to the
input path and `outfile` to the output path derived by extension
substitution under the output directory. -/
def create_dag_content (j : HTCondorJobCfg) : List Char :=
  ("CONFIG ".toList ++ j.config_file_path ++ " \n\n".toList) ++
    (j.input_files.enum.map (fun p =>
      "JOB job_".toList ++ natToChars p.1 ++ " ".toList ++
        j.job_sub_file_path ++ " \n".toList ++
      "VARS job_".toList ++ natToChars p.1 ++ " infile=\"".toList ++ p.2 ++
        "\" outfile=\"".toList ++
        pathJoin j.output_dir
          (strReplace (basenameOf p.2) j.input_file_ext j.output_file_ext) ++
        "\" \n\n".toList)).flatten

/-- The `job.sub` content written by `HTCondorJob.create_job_sub`: log path
patterns, resource requests, universe, transfer policy, executable and
argument binding, and the final `queue` directive. -/
def create_job_sub_content (j : HTCondorJobCfg) : List Char :=
  "log = ".toList ++ pathJoin j.log_file_path "$(Cluster).$(Process).log".toList ++
  "\noutput = ".toList ++ pathJoin j.out_file_path "$(Cluster).$(Process).out".toList ++
  "\nerror = ".toList ++ pathJoin j.err_file_path "$(Cluster).$(Process).err".toList ++
  "\n\nrequest_cpus = ".toList ++ natToChars j.request_cpus ++
  "\nrequest_memory = ".toList ++ j.request_memory ++
  "\nrequest_disk = ".toList ++ j.request_disk ++
  "\nUniverse = ".toList ++ j.job_universe ++
  "\nshould_transfer_files = ".toList ++ j.should_transfer_files ++
  "\nwhen_to_transfer_output = ".toList ++ j.when_to_transfer_output ++
  "\n\nexecutable = ".toList ++ j.job_sh_file_path ++
  "\narguments = $(infile) $(outfile)".toList ++
  "\n\nqueue".toList

/-- The `job.sh` content written by `HTCondorJob.create_job_sh`: a fixed
wrapper script with the script path interpolated. -/
def create_job_sh_content (j : HTCondorJobCfg) : List Char :=
  "#!/bin/sh\n\nexport HDF5_DISABLE_VERSION_CHECK=1\n\neval $(/cvmfs/icecube.opensciencegrid.org/py3-v4.3.0/setup.sh)\n\ninput_file=$1\noutput_file=$2\n\nscript_path=\"".toList ++
  j.script_path ++
  "\"\n\n\"$SROOT\"/metaprojects/icetray/v1.8.2/env-shell.sh /data/i3home/tstjean/icecube/venv/bin/python3.11 $script_path -i \"$input_file\" -o \"$output_file\"".toList

/-- The generated artifacts on disk: contents of `dagman.dag`, `job.sub` and
`job.sh` (`none` when the file does not exist), and the set of files in the
log directories. -/
structure JobArtifacts where
  dag : Option (List Char)
  sub : Option (List Char)
  sh : Option (List Char)
  log_files : List (List Char)
deriving DecidableEq

/-- Embedding of `HTCondorJob.configure(clean=True)`: `clean_logs` empties the log
directories, then `create_job_sh`, `create_job_sub` and `create_dag` each
open their target with mode `w` and write content computed purely from the
job configuration. -/
def configure (j : HTCondorJobCfg) (s : JobArtifacts) : JobArtifacts :=
  let _afterClean : JobArtifacts := { s with log_files := [] }
  { dag := some (create_dag_content j)
    sub := some (create_job_sub_content j)
    sh := some (create_job_sh_content j)
    log_files := [] }

/-! ## Sample run-log data for `status` -/

/-- A `dagman.out` snippet: the column-header marker line (prefixed by its
17-character entry time), a separator line, and the numeric status line
carrying the fields `10 0 5 0 3 0 2 0`. -/
def sampleRunLog1 : List (List Char) :=
  [ "03/22/24 10:15:01".toList ++ condition_text,
    "03/22/24 10:15:01   ===     ===      ===     ===     ===       ===      ===      ===".toList,
    "03/22/24 10:15:01    10       0       5       0       3       0        2        0".toList ]

/-- A `dagman.out` snippet with two status blocks; the scan from the end must
use the most recent (second) block, whose numeric line carries
`10 0 5 0 3 0 2 0` rather than the first block's `1 0 9 0 0 0 0 0`. -/
def sampleRunLog2 : List (List Char) :=
  [ "03/22/24 10:14:01".toList ++ condition_text,
    "03/22/24 10:14:01   ===     ===      ===     ===     ===       ===      ===      ===".toList,
    "03/22/24 10:14:01     1       0       9       0       0       0        0        0".toList,
    "03/22/24 10:15:01".toList ++ condition_text,
    "03/22/24 10:15:01   ===     ===      ===     ===     ===       ===      ===      ===".toList,
    "03/22/24 10:15:01    10       0       5       0       3       0        2        0".toList ]

/-! ## Helper lemmas -/

/-- The running index threaded by `buildIndexEntries` places entry `i` at the
accumulator plus the sum of the sizes of the preceding files. -/
theorem buildIndexEntries_get? (fs : List (List Char × Nat)) :
    ∀ (idx i : Nat),
      (buildIndexEntries fs idx).get? i =
        (fs.get? i).map
          (fun p => ⟨p.1, p.2, idx + ((fs.map Prod.snd).take i).sum⟩) := by
  induction fs with
  | nil => intro idx i; simp [buildIndexEntries]
  | cons hd tl ih =>
    intro idx i
    obtain ⟨f, s⟩ := hd
    cases i with
    | zero => simp [buildIndexEntries]
    | succ i =>
      simp only [buildIndexEntries, List.get?_cons_succ, ih (idx + s) i,
        List.map_cons, List.take_succ_cons, List.sum_cons]
      cases tl.get? i
      · simp
      · simp
        omega

/-- Any entry emitted while covering position `n` bounds `n` inside the block
`[idx, idx + total)` handled by this call of `buildIndexEntries`. -/
theorem coversPos_bounds (fs : List (List Char × Nat)) :
    ∀ (idx i : Nat) (e : IndexEntry) (n : Nat),
      (buildIndexEntries fs idx).get? i = some e → coversPos e n →
      idx ≤ n ∧ n < idx + ((fs.map Prod.snd).sum) := by
  induction fs with
  | nil => intro idx i e n h; simp [buildIndexEntries] at h
  | cons hd tl ih =>
    intro idx i e n h hc
    obtain ⟨f, s⟩ := hd
    cases i with
    | zero =>
      simp only [buildIndexEntries, List.get?_cons_zero, Option.some.injEq] at h
      subst h
      simp only [coversPos] at hc
      obtain ⟨h1, h2⟩ := hc
      simp only [List.map_cons, List.sum_cons]
      omega
    | succ i =>
      simp only [buildIndexEntries, List.get?_cons_succ] at h
      have := ih (idx + s) i e n h hc
      simp only [List.map_cons, List.sum_cons]
      omega

/-- Tiling of the block `[idx, idx + total)` by the entries that
`buildIndexEntries` emits: each position in the block is covered by exactly
one entry. -/
theorem buildIndexEntries_tiling (fs : List (List Char × Nat)) :
    ∀ (idx n : Nat),
      (idx ≤ n ∧ n < idx + (fs.map Prod.snd).sum) ↔
        ∃! i : Nat, ∃ e, (buildIndexEntries fs idx).get? i = some e ∧
          coversPos e n := by
  induction fs with
  | nil =>
    intro idx n
    constructor
    · intro h; simp at h; omega
    · rintro ⟨i, ⟨e, he, -⟩, -⟩
      simp [buildIndexEntries] at he
  | cons hd tl ih =>
    intro idx n
    obtain ⟨f, s⟩ := hd
    constructor
    · rintro ⟨h1, h2⟩
      by_cases hn : n < idx + s
      · refine ⟨0, ⟨⟨f, s, idx⟩, by simp [buildIndexEntries], h1, hn⟩, ?_⟩
        rintro j ⟨e, he, hc⟩
        cases j with
        | zero => rfl
        | succ j =>
          simp only [buildIndexEntries, List.get?_cons_succ] at he
          have := coversPos_bounds tl (idx + s) j e n he hc
          omega
      · have hn' : idx + s ≤ n := by omega
        have h2' : n < (idx + s) + (tl.map Prod.snd).sum := by
          simp only [List.map_cons, List.sum_cons] at h2; omega
        obtain ⟨i, hi, huniq⟩ := (ih (idx + s) n).mp ⟨hn', h2'⟩
        refine ⟨i + 1, ?_, ?_⟩
        · obtain ⟨e, he, hc⟩ := hi
          exact ⟨e, by simpa [buildIndexEntries] using he, hc⟩
        · rintro j ⟨e, he, hc⟩
          cases j with
          | zero =>
            simp only [buildIndexEntries, List.get?_cons_zero,
              Option.some.injEq] at he
            subst he
            simp only [coversPos] at hc
            obtain ⟨-, hc2⟩ := hc
            omega
          | succ j =>
            simp only [buildIndexEntries, List.get?_cons_succ] at he
            have := huniq j ⟨e, he, hc⟩
            omega
    · rintro ⟨i, ⟨e, he, hc⟩, -⟩
      exact coversPos_bounds ((f, s) :: tl) idx i e n he hc

/-- The seed `a` is a lower bound of `List.foldl max a`. -/
theorem le_foldl_max (xs : List Int) : ∀ a : Int, a ≤ xs.foldl max a := by
  induction xs with
  | nil => intro a; exact le_refl a
  | cons x xs ih =>
    intro a
    exact le_trans (le_max_left a x) (ih (max a x))

/-- Every member of `xs` is bounded by `List.foldl max a xs`. -/
theorem mem_le_foldl_max (xs : List Int) :
    ∀ (a x : Int), x ∈ xs → x ≤ xs.foldl max a := by
  induction xs with
  | nil => intro a x hx; simp at hx
  | cons y ys ih =>
    intro a x hx
    rcases List.mem_cons.mp hx with h | h
    · subst h
      exact le_trans (le_max_right a x) (le_foldl_max ys (max a x))
    · exact ih (max a y) x h

/-- Python `max` bounds every member of a list. -/
theorem le_maxList (l : List Int) (x : Int) (hx : x ∈ l) : x ≤ maxList l := by
  cases l with
  | nil => simp at hx
  | cons y ys =>
    rcases List.mem_cons.mp hx with h | h
    · subst h; exact le_foldl_max ys x
    · exact mem_le_foldl_max ys y x h

/-- Splitting via `pysplitAux` with a nonempty current token always emits at least one
token. -/
theorem pysplitAux_ne_nil_of_acc (l : List Char) :
    ∀ acc : List Char, acc ≠ [] → pysplitAux l acc ≠ [] := by
  induction l with
  | nil =>
    intro acc hacc
    simp only [pysplitAux]
    rw [if_neg (by simpa using hacc)]
    simp
  | cons c cs ih =>
    intro acc hacc
    simp only [pysplitAux]
    by_cases hws : isWS c
    · rw [if_pos hws, if_neg (by simpa using hacc)]
      simp
    · rw [if_neg hws]
      exact ih (c :: acc) (by simp)

/-- If the scanned characters contain a non-whitespace character, the split
is nonempty. -/
theorem pysplitAux_ne_nil (l : List Char) :
    ∀ acc : List Char, (∃ d ∈ l, isWS d = false) → pysplitAux l acc ≠ [] := by
  induction l with
  | nil => rintro acc ⟨d, hd, -⟩; simp at hd
  | cons c cs ih =>
    rintro acc ⟨d, hd, hdws⟩
    simp only [pysplitAux]
    by_cases hws : isWS c
    · have hd' : d ∈ cs := by
        rcases List.mem_cons.mp hd with h | h
        · subst h; rw [hws] at hdws; cases hdws
        · exact h
      rw [if_pos hws]
      by_cases hacc : acc.isEmpty
      · rw [if_pos hacc]
        exact ih [] ⟨d, hd', hdws⟩
      · rw [if_neg hacc]
        simp
    · rw [if_neg hws]
      exact pysplitAux_ne_nil_of_acc cs (c :: acc) (by simp)

/-- Every token produced by `pysplitAux` is nonempty, provided the current
token is (tokens only grow before being emitted). -/
theorem mem_pysplitAux_ne_nil (l : List Char) :
    ∀ (acc t : List Char), t ∈ pysplitAux l acc → t ≠ [] := by
  induction l with
  | nil =>
    intro acc t ht
    simp only [pysplitAux] at ht
    by_cases hacc : acc.isEmpty
    · rw [if_pos hacc] at ht; simp at ht
    · rw [if_neg hacc] at ht
      simp only [List.mem_singleton] at ht
      subst ht
      simpa using (by simpa using hacc : acc ≠ [])
  | cons c cs ih =>
    intro acc t ht
    simp only [pysplitAux] at ht
    by_cases hws : isWS c
    · rw [if_pos hws] at ht
      by_cases hacc : acc.isEmpty
      · rw [if_pos hacc] at ht
        exact ih [] t ht
      · rw [if_neg hacc] at ht
        rcases List.mem_cons.mp ht with h | h
        · subst h
          simpa using (by simpa using hacc : acc ≠ [])
        · exact ih [] t h
    · rw [if_neg hws] at ht
      exact ih (c :: acc) t ht

/-- Every token of `pysplit` is nonempty. -/
theorem mem_pysplit_ne_nil (l t : List Char) (ht : t ∈ pysplit l) : t ≠ [] :=
  mem_pysplitAux_ne_nil l [] t ht

/-- A string containing a non-whitespace character splits into at least one
token. -/
theorem pysplit_ne_nil (l : List Char) (h : ∃ d ∈ l, isWS d = false) :
    pysplit l ≠ [] :=
  pysplitAux_ne_nil l [] h

/-- A successful `startsWithL` match pins the first character. -/
theorem startsWithL_head {a : Char} {as hay : List Char}
    (h : startsWithL (a :: as) hay = true) :
    ∃ bs, hay = a :: bs := by
  cases hay with
  | nil => simp [startsWithL] at h
  | cons b bs =>
    simp only [startsWithL, Bool.and_eq_true, decide_eq_true_eq] at h
    exact ⟨bs, by rw [h.1]⟩

/-- The first character of a matched substring occurs in the haystack. -/
theorem containsSub_head_mem {a : Char} {as : List Char} :
    ∀ hay : List Char, containsSub (a :: as) hay = true → a ∈ hay := by
  intro hay
  induction hay with
  | nil => intro h; simp [containsSub, startsWithL] at h
  | cons c cs ih =>
    intro h
    simp only [containsSub, Bool.or_eq_true] at h
    rcases h with h | h
    · obtain ⟨bs, hbs⟩ := startsWithL_head h
      rw [List.cons.injEq] at hbs
      exact List.mem_cons.mpr (Or.inl hbs.1.symm)
    · exact List.mem_cons.mpr (Or.inr (ih h))

/-- Lowercasing a whitespace character leaves it whitespace-distinct from
`'c'`. -/
theorem asciiLower_ws_ne (d : Char) (h : isWS d = true) : asciiLower d ≠ 'c' := by
  simp only [isWS, Bool.or_eq_true, decide_eq_true_eq] at h
  rcases h with ((h | h) | h) | h <;> subst h <;> decide

/-- A line that passes the `"cluster" in line.lower()` test contains a
non-whitespace character. -/
theorem lineHasCluster_has_nonws (line : List Char)
    (h : lineHasCluster line = true) : ∃ d ∈ line, isWS d = false := by
  have hc : 'c' ∈ line.map asciiLower :=
    @containsSub_head_mem 'c' ("luster".toList) (line.map asciiLower) h
  obtain ⟨d, hd, hlow⟩ := List.mem_map.mp hc
  refine ⟨d, hd, ?_⟩
  by_contra hws
  exact asciiLower_ws_ne d (by simpa using hws) hlow

/-- Searching with `find?` over a prefix of misses locates the first hit. -/
theorem find?_append_cons {α : Type} (p : α → Bool) :
    ∀ (pre : List α) (x : α) (post : List α),
      (∀ l ∈ pre, p l = false) → p x = true →
      (pre ++ x :: post).find? p = some x := by
  intro pre x post hpre hx
  induction pre with
  | nil => simpa [List.find?] using List.find?_cons_of_pos post hx
  | cons a as ih =>
    have ha : p a = false := hpre a (List.mem_cons_self a as)
    rw [List.cons_append, List.find?_cons_of_neg _ (by simp [ha])]
    exact ih (fun l hl => hpre l (List.mem_cons.mpr (Or.inr hl)))

/-- Embedded `status` on an existing run-log returns `None` exactly when no line's
stripped text contains the column-header marker. -/
theorem status_ok_none_iff (lines : List (List Char)) (la : Nat) :
    status (some lines) la = .ok none ↔
      ∀ l ∈ lines, containsSub condition_text (pystrip l) = false := by
  unfold status
  rcases hF : (List.range lines.length).reverse.find?
      (fun i => containsSub condition_text (pystrip (lines.getD i []))) with - | i
  · simp only [hF, true_iff]
    intro l hl
    obtain ⟨i, hi, rfl⟩ := List.mem_iff_getElem.mp hl
    have hmem : i ∈ (List.range lines.length).reverse :=
      List.mem_reverse.mpr (List.mem_range.mpr hi)
    have h2 := List.find?_eq_none.mp hF i hmem
    simp only [Bool.not_eq_true, List.getD_eq_getElem lines [] hi] at h2
    exact h2
  · simp only [hF]
    constructor
    · intro h
      exfalso
      rcases hg : lines.get? (i + la) with - | raw
      · rw [hg] at h; simp at h
      · rw [hg] at h
        cases hp : parse_status (List.drop 17 (pystrip raw)) with
        | error e => simp [hp] at h
        | ok st => simp [hp] at h
    · intro hall
      exfalso
      have hpi := List.find?_some hF
      simp only [] at hpi
      have hmem : i ∈ (List.range lines.length).reverse :=
        List.mem_of_find?_eq_some hF
      have hi : i < lines.length :=
        List.mem_range.mp (List.mem_reverse.mp hmem)
      have hz : containsSub condition_text (pystrip lines[i]) = false :=
        hall lines[i] (List.getElem_mem hi)
      rw [List.getD_eq_getElem lines [] hi] at hpi
      rw [hpi] at hz
      cases hz

/-- The monitor loop returns at the first terminal read: `monitorPolls`
equals one plus the index of the first successfully parsed status with
`queued + ready = 0`. -/
theorem monitorPolls_eq_firstTerminalIdx :
    ∀ tr, monitorPolls tr = (firstTerminalIdx tr).map (fun n => n + 1) := by
  intro tr
  induction tr with
  | nil => rfl
  | cons r rest ih =>
    rcases r with e | st
    · rcases e <;>
        simp [monitorPolls, firstTerminalIdx, monitorCycle, isTerminalRead, ih,
          Option.map_map, Function.comp]
    · rcases st with - | st
      · simp [monitorPolls, firstTerminalIdx, monitorCycle, isTerminalRead, ih,
          Option.map_map, Function.comp]
      · by_cases h : st.queued + st.ready = 0
        · simp [monitorPolls, firstTerminalIdx, monitorCycle, isTerminalRead, h]
        · simp [monitorPolls, firstTerminalIdx, monitorCycle, isTerminalRead, h,
            ih, Option.map_map, Function.comp]

/-! ## Claim theorems -/

/-- C1: For every merge order of files with per-file event counts, the
event-index builder emits, for each file in merge order, an entry
`{size, index_start}` with `index_start i` equal to the sum of the preceding
sizes (in particular `index_start 0 = 0`), and the half-open ranges
`[index_start i, index_start i + size i)` partition `[0, total)` with no gaps
and no overlaps: every position below the total is covered by exactly one
entry, and no position at or above the total is covered. -/
theorem C1_event_index_tiling (files : List (List Char × Nat)) :
    (∀ (i : Nat) (p : List Char × Nat), files.get? i = some p →
        (generate_weight_config files).get? i =
          some ⟨p.1, p.2, ((files.map Prod.snd).take i).sum⟩)
    ∧ ∀ n : Nat, n < (files.map Prod.snd).sum ↔
        ∃! i : Nat, ∃ e, (generate_weight_config files).get? i = some e ∧
          coversPos e n := by
  constructor
  · intro i p hp
    rw [generate_weight_config, buildIndexEntries_get? files 0 i, hp]
    simp
  · intro n
    have h := buildIndexEntries_tiling files 0 n
    simpa [generate_weight_config] using h

/-- Witness for C1 at the concrete merge order `[("a", 2), ("b", 3)]`: the
second entry has size 3 and starts at index 2. -/
theorem C1_event_index_tiling_witness :
    (generate_weight_config [("a".toList, 2), ("b".toList, 3)]).get? 1 =
      some ⟨"b".toList, 3, 2⟩ :=
  (C1_event_index_tiling [("a".toList, 2), ("b".toList, 3)]).1 1
    ("b".toList, 3) rfl

/-- C2 (code bug): merging sources whose `event_no` values are unique only
within their own file does not make the merged `event_no` column globally
unique.  `DBFileGroup.merge` copies rows verbatim and never invokes
`__preprocess_for_merge`, so two sources each containing `event_no = 0`
merge to a store with a duplicated identifier; and even when the
preprocessing pass is run first, two sources whose filenames carry the same
six-digit substring (here `000001`) are shifted by the same offset and still
collide. -/
theorem C2_merge_not_globally_unique :
    merge [[(0 : Int)], [0]] = [0, 0]
    ∧ ¬ (merge [[(0 : Int)], [0]]).Nodup
    ∧ preprocess_for_merge_file 1 [0] = [1000000]
    ∧ merge_preprocessed [(1, [(0 : Int)]), (1, [0])] = [1000000, 1000000]
    ∧ ¬ (merge_preprocessed [(1, [(0 : Int)]), (1, [0])]).Nodup := by
  refine ⟨rfl, by decide, rfl, rfl, by decide⟩

/-- C3 counterexample: the collision check of `__preprocess_for_merge` is not
against the accumulating merge target, and the fallback block is not above
the global maximum.  With two sources whose filename substring is `000000`
(offset 0), the first source — processed while the target is still empty —
already triggers the fallback (so the check cannot be against the target),
and the second source's fallback block `[3, 4]` reuses the identifier `3`
already merged from the first source's block `[2, 3]`, so a fallback
identifier is not strictly greater than every identifier already merged and
global uniqueness is violated. -/
theorem C3_counterexample :
    preprocess_for_merge_file 0 [(0 : Int), 1] = [2, 3]
    ∧ preprocess_for_merge_file 0 [(1 : Int), 2] = [3, 4]
    ∧ merge_preprocessed [(0, [(0 : Int), 1]), (0, [1, 2])] = [2, 3, 3, 4]
    ∧ ¬ (merge_preprocessed [(0, [(0 : Int), 1]), (0, [1, 2])]).Nodup := by
  refine ⟨rfl, rfl, rfl, by decide⟩

/-- C3 (amended): during deconfliction the collision check compares each
offset-shifted identifier against the identifiers present in the same source
file, and on a collision the fallback assigns that source the contiguous
block starting one past that file's own maximum identifier, so every fallback
identifier is strictly greater than every identifier of that source file
(global uniqueness across sources is not thereby guaranteed). -/
theorem C3_fallback_above_own_max (d : Nat) (evs : List Int) (hne : evs ≠ [])
    (hcoll : (evs.map (fun en => (d : Int) * 1000000 + en)).any
        (fun n => evs.contains n) = true) :
    preprocess_for_merge_file d evs =
        (List.range evs.length).map (fun i => maxList evs + 1 + Int.ofNat i)
      ∧ ∀ x ∈ evs, ∀ y ∈ preprocess_for_merge_file d evs, x < y := by
  have hem : evs.isEmpty = false := by
    cases evs with
    | nil => exact absurd rfl hne
    | cons a l => rfl
  have heq : preprocess_for_merge_file d evs =
      (List.range evs.length).map (fun i => maxList evs + 1 + Int.ofNat i) := by
    unfold preprocess_for_merge_file
    rw [hem]
    simp only [Bool.false_eq_true, if_false, hcoll, if_true]
  refine ⟨heq, ?_⟩
  intro x hx y hy
  rw [heq] at hy
  obtain ⟨i, -, rfl⟩ := List.mem_map.mp hy
  have hxm : x ≤ maxList evs := le_maxList evs x hx
  have hnn : (0 : Int) ≤ Int.ofNat i := Int.natCast_nonneg i
  omega

/-- Witness for the amended C3 at a concrete colliding source (offset 0,
events `[0, 1]`). -/
theorem C3_fallback_above_own_max_witness :
    preprocess_for_merge_file 0 [(0 : Int), 1] =
        (List.range ([(0 : Int), 1]).length).map
          (fun i => maxList [(0 : Int), 1] + 1 + Int.ofNat i)
      ∧ ∀ x ∈ [(0 : Int), 1], ∀ y ∈ preprocess_for_merge_file 0 [(0 : Int), 1],
          x < y :=
  C3_fallback_above_own_max 0 [(0 : Int), 1] (by decide) (by decide)

/-- C4 (code bug): `I3File.__preload_weights` slices
`weight_data[index_start : index_start + size + 1]`, one element too many.
For the index table `{f1: {size 2, index_start 0}, f2: {size 2,
index_start 2}}` over the weight vector `[10, 20, 30, 40]`, the cache built
for `f1` is `[10, 20, 30]` — three elements, not `size = 2`, and it includes
`30`, the element at position 2, which is the first element of `f2`'s range
`[2, 4)`. -/
theorem C4_preload_weights_off_by_one :
    preload_weights [10, 20, 30, 40] 0 2 = [10, 20, 30]
    ∧ (preload_weights [10, 20, 30, 40] 0 2).length ≠ 2
    ∧ (30 : Int) ∈ preload_weights [10, 20, 30, 40] 0 2
    ∧ preload_weights [10, 20, 30, 40] 2 2 = [30, 40] := by
  refine ⟨rfl, by decide, by decide, rfl⟩

/-- C5: `status` scans the run-log from the end backwards for the most
recent occurrence of the fixed column-header marker, parses the numeric line
`lines_after = 2` lines below it positionally into the eight counters in the
order done, pre, queued, post, ready, unready, failed, futile, and returns
`None` when the marker appears nowhere in the file.  On a snippet whose
status line carries the numeric fields `10 0 5 0 3 0 2 0` it returns exactly
those counters, and on a snippet with two status blocks it parses the later
(most recent) one. -/
theorem C5_status_parsing :
    (∀ lines : List (List Char),
        (∀ l ∈ lines, containsSub condition_text (pystrip l) = false) →
        status (some lines) 2 = .ok none)
    ∧ status (some sampleRunLog1) 2 = .ok (some ⟨10, 0, 5, 0, 3, 0, 2, 0⟩)
    ∧ status (some sampleRunLog2) 2 = .ok (some ⟨10, 0, 5, 0, 3, 0, 2, 0⟩) := by
  refine ⟨fun lines h => (status_ok_none_iff lines 2).mpr h, ?_, ?_⟩
  · rfl
  · rfl

/-- Witness for C5: a run-log with a single non-marker line yields `None`. -/
theorem C5_status_parsing_witness :
    status (some ["hello world".toList]) 2 = .ok none :=
  C5_status_parsing.1 ["hello world".toList] (by decide)

/-- C6: the monitor loop returns exactly at the first successfully read
status whose `queued + ready` is zero — `monitorPolls` is one plus the index
of the first terminal read — and on a trace whose third read is the first
with `queued + ready = 0` it performs exactly 3 polls and returns. -/
theorem C6_monitor_terminates_at_first_zero :
    (∀ tr, monitorPolls tr = (firstTerminalIdx tr).map (fun n => n + 1))
    ∧ ∀ (a b c : JobStatus) (rest : List (Except PyErr (Option JobStatus))),
        a.queued + a.ready ≠ 0 → b.queued + b.ready ≠ 0 →
        c.queued + c.ready = 0 →
        monitorPolls (.ok (some a) :: .ok (some b) :: .ok (some c) :: rest) =
          some 3 := by
  refine ⟨monitorPolls_eq_firstTerminalIdx, ?_⟩
  intro a b c rest ha hb hc
  simp [monitorPolls, monitorCycle, ha, hb, hc]

/-- Witness for C6 on a concrete three-read trace whose counters first reach
`queued + ready = 0` on the third read. -/
theorem C6_monitor_terminates_at_first_zero_witness :
    monitorPolls
        (.ok (some ⟨0, 0, 5, 0, 3, 0, 0, 0⟩) ::
          .ok (some ⟨5, 0, 2, 0, 1, 0, 0, 0⟩) ::
          .ok (some ⟨8, 0, 0, 0, 0, 0, 2, 0⟩) :: []) = some 3 :=
  C6_monitor_terminates_at_first_zero.2 ⟨0, 0, 5, 0, 3, 0, 0, 0⟩
    ⟨5, 0, 2, 0, 1, 0, 0, 0⟩ ⟨8, 0, 0, 0, 0, 0, 2, 0⟩ []
    (by decide) (by decide) (by decide)

/-- C7 (code bug): a cycle whose `status()` yields `None` hits `continue`,
which skips the `time.sleep(1)` at the bottom of the loop body, so the next
fetch happens with no wait (sleep 0, not the claimed 1 second); the
`FileNotFoundError` and `IndexError` cycles do sleep 1 second and are never
escalated, and the loop keeps polling with no retry bound (after any number
of failed reads it is still running rather than raising). -/
theorem C7_none_status_cycle_skips_sleep :
    monitorCycle (.ok none) = some 0
    ∧ monitorCycle (.error .fileNotFoundError) = some 1
    ∧ monitorCycle (.error .indexError) = some 1
    ∧ monitorSleeps [.ok none, .ok none] = 0
    ∧ monitorPolls (List.replicate 5 (.error .fileNotFoundError)) = none := by
  exact ⟨rfl, rfl, rfl, rfl, rfl⟩

/-- The last token of a line passing the cluster-marker test exists and is
nonempty (`line.split()[-1]` cannot fail on such a line). -/
theorem cluster_line_last_token (line : List Char)
    (h : lineHasCluster line = true) :
    ∃ t, (pysplit line).getLast? = some t ∧ t ≠ [] := by
  have hnws := lineHasCluster_has_nonws line h
  have hsp : pysplit line ≠ [] := pysplit_ne_nil line hnws
  refine ⟨(pysplit line).getLast hsp, List.getLast?_eq_getLast _ hsp, ?_⟩
  exact mem_pysplit_ne_nil line _ (List.getLast_mem hsp)

/-- C8: `submit` extracts the job identifier as the trailing whitespace
token of the first captured stdout line containing the marker `"cluster"`
(case-insensitively), and raises its explicit `ValueError` if and only if no
line of the captured output yields an identifier (equivalently, no line
contains the marker). -/
theorem C8_submit_id_extraction (stdout_lines : List (List Char)) :
    (submit_raises stdout_lines = true ↔
        ∀ l ∈ stdout_lines, lineHasCluster l = false)
    ∧ ∀ (pre : List (List Char)) (line : List Char)
        (post : List (List Char)),
        stdout_lines = pre ++ line :: post →
        (∀ l ∈ pre, lineHasCluster l = false) → lineHasCluster line = true →
        submit_job_id stdout_lines = (pysplit line).getLast?
          ∧ submit_raises stdout_lines = false := by
  constructor
  · constructor
    · intro h
      intro l hl
      by_contra hcl
      have hcl' : lineHasCluster l = true := by
        cases hq : lineHasCluster l with
        | false => exact absurd hq hcl
        | true => rfl
      obtain ⟨line', hline'⟩ : ∃ line',
          stdout_lines.find? lineHasCluster = some line' := by
        cases hf : stdout_lines.find? lineHasCluster with
        | none =>
          have := List.find?_eq_none.mp hf l hl
          rw [hcl'] at this
          exact absurd rfl this
        | some x => exact ⟨x, rfl⟩
      have hm : lineHasCluster line' = true := List.find?_some hline'
      obtain ⟨t, hlast, htne⟩ := cluster_line_last_token line' hm
      unfold submit_raises submit_job_id at h
      rw [hline'] at h
      simp only [hlast, List.isEmpty_eq_true] at h
      exact htne h
    · intro hall
      have hf : stdout_lines.find? lineHasCluster = none :=
        List.find?_eq_none.mpr (fun x hx => by simp [hall x hx])
      unfold submit_raises submit_job_id
      rw [hf]
  · intro pre line post hsplit hpre hmark
    have hf : stdout_lines.find? lineHasCluster = some line := by
      rw [hsplit]
      exact find?_append_cons lineHasCluster pre line post hpre hmark
    obtain ⟨t, hlast, htne⟩ := cluster_line_last_token line hmark
    constructor
    · unfold submit_job_id
      rw [hf]
    · unfold submit_raises submit_job_id
      rw [hf]
      simp only [hlast]
      cases t with
      | nil => exact absurd rfl htne
      | cons a as => rfl

/-- Witness for C8 on a captured stdout consisting of one scheduler line
containing the marker: the identifier is the trailing token and no error is
raised. -/
theorem C8_submit_id_extraction_witness :
    submit_job_id ["1 job(s) submitted to cluster 12345.".toList] =
        (pysplit "1 job(s) submitted to cluster 12345.".toList).getLast?
      ∧ submit_raises ["1 job(s) submitted to cluster 12345.".toList] = false :=
  (C8_submit_id_extraction ["1 job(s) submitted to cluster 12345.".toList]).2
    [] ("1 job(s) submitted to cluster 12345.".toList) [] rfl
    (by intro l hl; cases hl) (by decide)

/-- C9: for a fixed input-file list and configuration, generation of the
job-description (`dagman.dag`) and submission-template (`job.sub`) artifacts
is a pure function of the job configuration: running `configure` (with
log-clearing) twice produces the same artifact state as running it once, the
resulting state does not depend on the prior state (in particular not on any
scheduler state), and the emitted contents are exactly
`create_dag_content`/`create_job_sub_content` of the configuration. -/
theorem C9_configure_idempotent (j : HTCondorJobCfg) (s s' : JobArtifacts) :
    configure j (configure j s) = configure j s
    ∧ configure j s = configure j s'
    ∧ (configure j s).dag = some (create_dag_content j)
    ∧ (configure j s).sub = some (create_job_sub_content j) :=
  ⟨rfl, rfl, rfl, rfl⟩

/-- C10: when the run-log file does not exist, `status` raises
`FileNotFoundError` rather than returning `None`; the `None` return occurs
exactly when the file exists but no line contains the header marker; and the
missing-file case is converted into wait-and-retry (sleep 1 second, keep
looping) by the monitor loop's exception handler, not inside `status`. -/
theorem C10_status_missing_file_raises :
    (∀ lines_after : Nat, status none lines_after = .error .fileNotFoundError)
    ∧ (∀ (lines : List (List Char)) (lines_after : Nat),
        status (some lines) lines_after = .ok none ↔
          ∀ l ∈ lines, containsSub condition_text (pystrip l) = false)
    ∧ monitorCycle (.error .fileNotFoundError) = some 1 :=
  ⟨fun _ => rfl, status_ok_none_iff, rfl⟩

/-- Witness for C10: the missing-file case at `lines_after = 2` raises, and
an existing marker-free run-log maps to `None`. -/
theorem C10_status_missing_file_raises_witness :
    status none 2 = .error .fileNotFoundError
    ∧ (status (some []) 2 = .ok none ↔
        ∀ l ∈ ([] : List (List Char)),
          containsSub condition_text (pystrip l) = false) :=
  ⟨C10_status_missing_file_raises.1 2,
    C10_status_missing_file_raises.2.1 [] 2⟩

end ICAnalysis
